import Mathlib

/-!
Shallow embedding of the scoreboard core of the Minecraft-Plugin-Server
repository (Go).  Pure fragments of the Go code (hashing, namespace
derivation, regex dispatch, string parsing) are translated into executable
Lean functions; stateful operations are modelled by explicit state passing;
Go runtime panics are modelled as `Except.error`.
-/

namespace Scoreboard

/-! Word-level arithmetic for the 64-bit xxhash used by `getNamespace`.
All values are `Nat`s kept below `2 ^ 64` by explicit reduction. -/

def M64 : Nat := 18446744073709551616

def w64 (n : Nat) : Nat := n % M64

/-- Rotate a 64-bit value left by `r` bits (`0 < r < 64`); the two summands
occupy disjoint bit ranges, so addition agrees with bitwise or. -/
def rotl64 (x r : Nat) : Nat := ((x <<< r) % M64) + (x >>> (64 - r))

def xxPrime1 : Nat := 11400714785074694791
def xxPrime2 : Nat := 14029467366897019727
def xxPrime3 : Nat := 1609587929392839161
def xxPrime4 : Nat := 9650029242287828579
def xxPrime5 : Nat := 2870177450012600261

def xxRound (acc input : Nat) : Nat :=
  w64 (rotl64 (w64 (acc + w64 (input * xxPrime2))) 31 * xxPrime1)

def xxMerge (h v : Nat) : Nat :=
  w64 ((h ^^^ xxRound 0 v) * xxPrime1 + xxPrime4)

/-- Little-endian value of a byte list. -/
def leBytes (bs : List Nat) : Nat := bs.foldr (fun b acc => b + 256 * acc) 0

/-- Main 32-byte-stripe loop of XXH64 (four lanes of 8 bytes each). -/
def xxStripes : List Nat → Nat × Nat × Nat × Nat → (Nat × Nat × Nat × Nat) × List Nat
  | b0 :: b1 :: b2 :: b3 :: b4 :: b5 :: b6 :: b7 ::
    c0 :: c1 :: c2 :: c3 :: c4 :: c5 :: c6 :: c7 ::
    d0 :: d1 :: d2 :: d3 :: d4 :: d5 :: d6 :: d7 ::
    e0 :: e1 :: e2 :: e3 :: e4 :: e5 :: e6 :: e7 :: rest, (v1, v2, v3, v4) =>
      xxStripes rest
        (xxRound v1 (leBytes [b0, b1, b2, b3, b4, b5, b6, b7]),
         xxRound v2 (leBytes [c0, c1, c2, c3, c4, c5, c6, c7]),
         xxRound v3 (leBytes [d0, d1, d2, d3, d4, d5, d6, d7]),
         xxRound v4 (leBytes [e0, e1, e2, e3, e4, e5, e6, e7]))
  | bs, vs => (vs, bs)

/-- 8-byte tail loop of XXH64. -/
def xxTail8 : List Nat → Nat → Nat × List Nat
  | b0 :: b1 :: b2 :: b3 :: b4 :: b5 :: b6 :: b7 :: rest, h =>
      xxTail8 rest
        (w64 (rotl64 (w64 (h ^^^ xxRound 0 (leBytes [b0, b1, b2, b3, b4, b5, b6, b7]))) 27
          * xxPrime1 + xxPrime4))
  | bs, h => (h, bs)

/-- Single optional 4-byte tail step of XXH64. -/
def xxTail4 : List Nat → Nat → Nat × List Nat
  | b0 :: b1 :: b2 :: b3 :: rest, h =>
      (w64 (rotl64 (w64 (h ^^^ w64 (leBytes [b0, b1, b2, b3] * xxPrime1))) 23
        * xxPrime2 + xxPrime3), rest)
  | bs, h => (h, bs)

/-- Byte-at-a-time tail loop of XXH64. -/
def xxTail1 : List Nat → Nat → Nat
  | [], h => h
  | b :: rest, h => xxTail1 rest (w64 (rotl64 (w64 (h ^^^ w64 (b * xxPrime5))) 11 * xxPrime1))

def xxAvalanche (h0 : Nat) : Nat :=
  let h1 := w64 ((h0 ^^^ (h0 >>> 33)) * xxPrime2)
  let h2 := w64 ((h1 ^^^ (h1 >>> 29)) * xxPrime3)
  h2 ^^^ (h2 >>> 32)

/-- XXH64 with seed 0, as computed by `xxhash.Sum64String` in `getNamespace`. -/
def xxh64 (bytes : List Nat) : Nat :=
  let n := bytes.length
  let p :=
    if 32 ≤ n then
      match xxStripes bytes (w64 (xxPrime1 + xxPrime2), xxPrime2, 0, w64 (M64 - xxPrime1)) with
      | ((v1, v2, v3, v4), rest) =>
          (List.foldl xxMerge
            (w64 (rotl64 v1 1 + rotl64 v2 7 + rotl64 v3 12 + rotl64 v4 18)) [v1, v2, v3, v4],
           rest)
    else (xxPrime5, bytes)
  let h1 := w64 (p.1 + n)
  let q := xxTail8 p.2 h1
  let q2 := xxTail4 q.2 q.1
  xxAvalanche (xxTail1 q2.2 q2.1)

/-- UTF-8 encoding of one character (Go strings are UTF-8 byte sequences). -/
def utf8Bytes (c : Char) : List Nat :=
  let n := c.toNat
  if n < 128 then [n]
  else if n < 2048 then [192 + n / 64, 128 + n % 64]
  else if n < 65536 then [224 + n / 4096, 128 + n / 64 % 64, 128 + n % 64]
  else [240 + n / 262144, 128 + n / 4096 % 64, 128 + n / 64 % 64, 128 + n % 64]

def strBytes (s : String) : List Nat := (s.data.map utf8Bytes).flatten

def b64UrlAlphabet : List Char :=
  "ABCDEFGHIJKLMNOPQRSTUVWXYZabcdefghijklmnopqrstuvwxyz0123456789-_".data

def b64StdAlphabet : List Char :=
  "ABCDEFGHIJKLMNOPQRSTUVWXYZabcdefghijklmnopqrstuvwxyz0123456789+/".data

/-- Unpadded (raw) base64 encoding over the given alphabet, as in Go's
`base64.RawURLEncoding` / `base64.RawStdEncoding`. -/
def b64Encode (alph : List Char) : List Nat → List Char
  | b0 :: b1 :: b2 :: rest =>
      alph.getD (b0 / 4) 'A' :: alph.getD (b0 % 4 * 16 + b1 / 16) 'A' ::
      alph.getD (b1 % 16 * 4 + b2 / 64) 'A' :: alph.getD (b2 % 64) 'A' :: b64Encode alph rest
  | [b0, b1] =>
      [alph.getD (b0 / 4) 'A', alph.getD (b0 % 4 * 16 + b1 / 16) 'A', alph.getD (b1 % 16 * 4) 'A']
  | [b0] => [alph.getD (b0 / 4) 'A', alph.getD (b0 % 4 * 16) 'A']
  | [] => []

/-- Big-endian byte decomposition of a 64-bit value, mirroring
`binary.BigEndian.AppendUint64`. -/
def be64Bytes (h : Nat) : List Nat :=
  [h >>> 56 % 256, h >>> 48 % 256, h >>> 40 % 256, h >>> 32 % 256,
   h >>> 24 % 256, h >>> 16 % 256, h >>> 8 % 256, h % 256]

/-- Big-endian byte decomposition of a 32-bit value, mirroring
`binary.BigEndian.AppendUint32`. -/
def be32Bytes (h : Nat) : List Nat :=
  [h >>> 24 % 256, h >>> 16 % 256, h >>> 8 % 256, h % 256]

/-- Translation of `ScoreboardCore.getNamespace`: xxhash of the plugin name,
big-endian bytes, drop the first four bytes, raw-url base64, first five
characters. -/
def getNamespace (name : String) : String :=
  String.mk ((b64Encode b64UrlAlphabet ((be64Bytes (xxh64 (strBytes name))).drop 4)).take 5)

/-! Backtracking regular-expression engine with capture groups.  Go's
`regexp` package uses leftmost-first (Perl-style) submatch semantics, which
is exactly what a depth-first backtracking search computes.  The engine is
written in continuation-passing style with a fuel counter for termination;
all concrete evaluations in this file use ample fuel. -/

inductive RE where
  | eps : RE
  | pred : (Char → Bool) → RE
  | cat : RE → RE → RE
  | alt : RE → RE → RE
  | starL : RE → RE
  | starG : RE → RE
  | grp : Nat → RE → RE

/-- Captures: group index paired with the matched character run; the most
recent write for a group is first in the list. -/
abbrev Caps := List (Nat × List Char)

def mrun : Nat → RE → List Char → Caps → (List Char → Caps → Option Caps) → Option Caps
  | 0, _, _, _, _ => none
  | _ + 1, RE.eps, s, c, k => k s c
  | _ + 1, RE.pred p, s, c, k =>
      match s with
      | [] => none
      | ch :: rest => if p ch then k rest c else none
  | f + 1, RE.cat a b, s, c, k => mrun f a s c (fun s2 c2 => mrun f b s2 c2 k)
  | f + 1, RE.alt a b, s, c, k =>
      (mrun f a s c k).orElse (fun _ => mrun f b s c k)
  | f + 1, RE.starL a, s, c, k =>
      (k s c).orElse (fun _ => mrun f a s c (fun s2 c2 => mrun f (RE.starL a) s2 c2 k))
  | f + 1, RE.starG a, s, c, k =>
      (mrun f a s c (fun s2 c2 => mrun f (RE.starG a) s2 c2 k)).orElse (fun _ => k s c)
  | f + 1, RE.grp i a, s, c, k =>
      mrun f a s c (fun s2 c2 => k s2 ((i, s.take (s.length - s2.length)) :: c2))

/-- Unanchored leftmost search: try a match at each successive offset, as
`FindStringSubmatch` does. -/
def reSearch (fuel : Nat) (r : RE) : List Char → Option Caps
  | [] => mrun fuel r [] [] (fun _ c => some c)
  | ch :: rest =>
      match mrun fuel r (ch :: rest) [] (fun _ c => some c) with
      | some c => some c
      | none => reSearch fuel r rest

/-- Anchored match at the start of the input (for a pattern beginning with
a caret). -/
def reAnchored (fuel : Nat) (r : RE) (s : List Char) : Option Caps :=
  mrun fuel r s [] (fun _ c => some c)

/-- Captured text of group `i`, with the empty string for a group that did
not participate in the match, as in Go's `FindStringSubmatch`. -/
def capGet (c : Caps) (i : Nat) : List Char :=
  match c.find? (fun p => p.1 == i) with
  | some p => p.2
  | none => []

def rLit (c : Char) : RE := RE.pred (fun x => x == c)

def rStr (s : String) : RE := s.data.foldr (fun c acc => RE.cat (rLit c) acc) RE.eps

def rOpt (a : RE) : RE := RE.alt a RE.eps

def rPlus (a : RE) : RE := RE.cat a (RE.starG a)

/-- Any character other than newline (Go's dot). -/
def rAny : RE := RE.pred (fun c => c != '\n')

def isWordChar (c : Char) : Bool :=
  ('0' ≤ c && c ≤ '9') || ('a' ≤ c && c ≤ 'z') || ('A' ≤ c && c ≤ 'Z') || c == '_'

def isDigitChar (c : Char) : Bool := '0' ≤ c && c ≤ '9'

/-- Go's whitespace class `\s` is tab, newline, vertical tab, form feed,
carriage return, space. -/
def isSpaceClass (c : Char) : Bool :=
  c == ' ' || c == '\t' || c == '\n' || c == '\x0b' || c == '\x0c' || c == '\r'

def rcats (l : List RE) : RE := l.foldr RE.cat RE.eps

/-- AST of the trigger-dispatch pattern compiled in `ScoreboardCore.Init`:
dot-star-lazy, bracket-colon, an optional bracketed tag, an optional space,
then bracket, capture 1 of word chars, colon, optional space, the word
Triggered, optional space, bracket, capture 2 lazy, bracket, optional
space, an optional alternation capturing the value as group 3 (set) or
group 4 (added), and a final bracket. -/
def triggerInfoRE : RE :=
  rcats
    [RE.starL rAny, rLit ']', rLit ':',
     rOpt (rcats [rLit ' ', rLit '[', rPlus (RE.pred (fun c => c != ']')), rLit ']']),
     rOpt (rLit ' '), rLit '[',
     RE.grp 1 (rPlus (RE.pred isWordChar)),
     rLit ':', rOpt (rLit ' '), rStr "Triggered", rOpt (rLit ' '), rLit '[',
     RE.grp 2 (RE.starL rAny), rLit ']', rOpt (rLit ' '),
     rOpt (RE.alt
       (rcats [rStr "(set value to ", RE.grp 3 (rPlus (RE.pred isDigitChar)), rLit ')'])
       (rcats [rStr "(added ", RE.grp 4 (rPlus (RE.pred isDigitChar)), rStr " to value)"])),
     rLit ']']

/-- AST of `ScoreboardTrackedPlayer`: the words There are, one digit,
tracked, dot-star-lazy, colon, optional whitespace, capture 1 greedy. -/
def trackedPlayerRE : RE :=
  rcats
    [rStr "There are ", RE.pred isDigitChar, rStr " tracked ", RE.starL rAny,
     rLit ':', rOpt (RE.pred isSpaceClass), RE.grp 1 (RE.starG rAny)]

/-- AST of `ScoreboardTrackedPlayerScore` (anchored): caret,
dot-star-lazy, the word has, capture 1 of digits. -/
def trackedScoreRE : RE :=
  rcats [RE.starL rAny, rStr " has ", RE.grp 1 (rPlus (RE.pred isDigitChar))]

/-! String helpers mirroring the Go standard-library functions used by the
scoreboard core. -/

/-- Character class of Go's `unicode.IsSpace` restricted to Latin-1 (the
only code points the scraped console lines contain). -/
def isGoSpace (c : Char) : Bool :=
  c == ' ' || c == '\t' || c == '\n' || c == '\x0b' || c == '\x0c' || c == '\r' ||
  c.toNat == 133 || c.toNat == 160

def dropWhileEnd (p : Char → Bool) (l : List Char) : List Char :=
  (l.reverse.dropWhile p).reverse

/-- Go `strings.TrimSpace`. -/
def goTrimSpace (s : List Char) : List Char :=
  dropWhileEnd isGoSpace (s.dropWhile isGoSpace)

/-- Go `strings.Trim` with a cutset. -/
def trimCutset (cut : List Char) (s : List Char) : List Char :=
  dropWhileEnd (fun c => cut.contains c) (s.dropWhile (fun c => cut.contains c))

/-- Go `strings.Split` with a one-character separator; always returns at
least one piece. -/
def splitOnChar (c : Char) : List Char → List (List Char)
  | [] => [[]]
  | x :: xs =>
      match splitOnChar c xs with
      | [] => [[]]
      | r :: rs => if x == c then [] :: r :: rs else (x :: r) :: rs

def startsWithL : List Char → List Char → Bool
  | [], _ => true
  | _ :: _, [] => false
  | p :: ps, x :: xs => p == x && startsWithL ps xs

/-- Go `strings.Contains pat` as a predicate on the searched list. -/
def containsL (pat : List Char) : List Char → Bool
  | [] => pat.isEmpty
  | x :: xs => startsWithL pat (x :: xs) || containsL pat xs

def digitsVal (ds : List Char) : Nat :=
  ds.foldl (fun a c => a * 10 + (c.toNat - 48)) 0

def maxInt64 : Nat := 9223372036854775807

/-- Go `strconv.ParseInt` on an all-digit string with the error ignored:
the returned value is clamped to the 64-bit maximum on range overflow. -/
def parseIntClamp (ds : List Char) : Int := Int.ofNat (min (digitsVal ds) maxInt64)

/-- Regex-engine fuel: a generous bound on the depth of the backtracking
search for inputs of the given length. -/
def reFuelFor (s : List Char) : Nat := 2000 + 300 * s.length

/-! Model of `ScoreboardCore.processTrigger`.  The function is given the
set of trigger names currently bound in `sc.trigger` and the log line, and
returns the console commands it issues and the callback invocations it
spawns (player, value), in order.  `FindStringSubmatch` returns nil on no
match and a five-element slice on a match (the pattern has four groups),
so the Go length guard `< 5` is exactly the no-match case. -/

def processTriggerM (trigBound : List String) (logText : String) :
    List String × List (String × Int) :=
  match reSearch (reFuelFor logText.data) triggerInfoRE logText.data with
  | none => ([], [])
  | some caps =>
      let player := String.mk (goTrimSpace (capGet caps 1))
      let trig := String.mk (goTrimSpace (capGet caps 2))
      let g3 := capGet caps 3
      let g4 := capGet caps 4
      let value : Int :=
        if g3 ≠ [] then parseIntClamp g3
        else if g4 ≠ [] then parseIntClamp g4
        else 0
      if trigBound.contains trig then
        (["scoreboard players enable @a " ++ trig], [(player, value)])
      else ([], [])

/-! Model of `ScoreboardCore.clearTrigger`.  Input: the reply to the
`scoreboard objectives list` command.  Output: the remove commands put
into `commandList` (joined with newlines into one console round-trip by
the code). -/

/-- Objective names enumerated from the list reply: split on colon, and
when there are exactly two pieces, split the second on commas, trimming
whitespace and square brackets. -/
def clearItems (reply : String) : List (List Char) :=
  let parts := splitOnChar ':' reply.data
  if parts.length == 2 then
    (splitOnChar ',' (parts.getD 1 [])).map (fun it => trimCutset ['[', ']'] (goTrimSpace it))
  else []

def removeCmdStr (t : List Char) : String :=
  "scoreboard objectives remove " ++ String.mk t

def clearTriggerM (reply : String) : List String :=
  (clearItems reply).foldl
    (fun acc t => if containsL "tri_".data t then acc ++ [removeCmdStr t] else acc) []

/-! Model of `ScoreboardCore.requestSync` and the debounce timer.

A `time.AfterFunc` timer fires its function once when its deadline
elapses; `Reset` re-arms it with a new deadline (valid here because in a
burst every call happens before the pending deadlines).  The state records
the final deadline of every timer the code has created (each such timer,
never stopped, fires `syncScore` exactly once at its last-set deadline)
and which timer the `sc.debounce` field currently points at.  Times are in
milliseconds; the window is 1000. -/

structure DebounceState where
  timers : List Nat
  armed : Option Nat
  deriving DecidableEq, Repr

def initDebounce : DebounceState := ⟨[], none⟩

/-- Translation of `requestSync` called at time `now`: if the `debounce`
field is non-nil, `Reset` the timer it points at to `now + 1000`; then
unconditionally create a fresh timer with deadline `now + 1000` and point
`debounce` at it. -/
def requestSync (now : Nat) (s : DebounceState) : DebounceState :=
  let timers :=
    match s.armed with
    | some i => s.timers.set i (now + 1000)
    | none => s.timers
  ⟨timers ++ [now + 1000], some timers.length⟩

/-- One call of a burst is valid when it happens strictly before every
pending deadline (so no timer has fired yet during the burst). -/
def stepBurst (s : Option DebounceState) (now : Nat) : Option DebounceState :=
  s.bind (fun st => if st.timers.all (fun d => now < d) then some (requestSync now st) else none)

/-- Run a burst of `requestSync` calls at the given times from the initial
state. -/
def runBurst (times : List Nat) : Option DebounceState :=
  times.foldl stepBurst (some initDebounce)

/-- Number of full syncs that will run once the burst is over and all
deadlines elapse: every timer in the list fires exactly once. -/
def pendingSyncs (s : DebounceState) : Nat := s.timers.length

/-! Models of the objective registry and score cache.

The cache `sc.score` is a map from player to an inner map from objective
name to value; the registry `sc.scorelist` is a list of namespaced
objective names.  A Go runtime panic is modelled as `Except.error`. -/

instance {ε α : Type _} [DecidableEq ε] [DecidableEq α] : DecidableEq (Except ε α) := fun x y =>
  match x, y with
  | .ok a, .ok b =>
      if h : a = b then isTrue (by rw [h]) else isFalse (by intro hh; cases hh; exact h rfl)
  | .error a, .error b =>
      if h : a = b then isTrue (by rw [h]) else isFalse (by intro hh; cases hh; exact h rfl)
  | .ok _, .error _ => isFalse (by intro hh; cases hh)
  | .error _, .ok _ => isFalse (by intro hh; cases hh)

abbrev Cache := List (String × List (String × Int))

def cacheGet (c : Cache) (player : String) : Option (List (String × Int)) :=
  match c.find? (fun p => p.1 == player) with
  | some p => some p.2
  | none => none

def innerSet (m : List (String × Int)) (k : String) (v : Int) : List (String × Int) :=
  if m.any (fun p => p.1 == k) then
    m.map (fun p => if p.1 == k then (k, v) else p)
  else m ++ [(k, v)]

def cacheSet (c : Cache) (player obj : String) (v : Int) : Cache :=
  c.map (fun p => if p.1 == player then (p.1, innerSet p.2 obj v) else p)

def innerGet (m : List (String × Int)) (k : String) : Option Int :=
  match m.find? (fun p => p.1 == k) with
  | some p => some p.2
  | none => none

/-- Namespaced objective name `namespace + "_" + logicalName` built by the
registry operations. -/
def nsName (ctxName lname : String) : String :=
  getNamespace ctxName ++ "_" ++ lname

/-- Translation of `ScoreboardCore.ensureScoreboard` acting on the
registry.  Returns the console commands issued and the new registry.  The
diagnostic `Println` slices `name[9:]` before any command is issued, which
panics when the namespaced name is shorter than nine bytes. -/
def ensureScoreboardM (ctxName lname criterion displayname : String)
    (scorelist : List String) : Except String (List String × List String) :=
  let name := nsName ctxName lname
  if scorelist.contains name then Except.ok ([], scorelist)
  else if name.length < 9 then
    Except.error "panic: slice bounds out of range in name[9:]"
  else
    Except.ok (["scoreboard objectives add " ++ name ++ " " ++ criterion ++ " " ++ displayname],
      scorelist ++ [name])

/-- Translation of `ScoreboardCore.displayScoreboard`: issues the
setdisplay command only when the namespaced objective is registered; the
registry, cache and trigger map are never written. -/
def displayScoreboardM (ctxName lname slot : String) (scorelist : List String) : List String :=
  let name := nsName ctxName lname
  if scorelist.contains name then
    ["scoreboard objectives setdisplay " ++ slot ++ " " ++ name]
  else []

/-- Translation of `ScoreboardCore.scoreAction`: issues the player-score
command only when the namespaced objective is registered; no state is
written. -/
def scoreActionM (ctxName player lname action : String) (count : Int)
    (scorelist : List String) : List String :=
  let name := nsName ctxName lname
  if scorelist.contains name then
    ["scoreboard players " ++ action ++ " " ++ player ++ " " ++ name ++ " " ++ toString count]
  else []

/-- Reply parse of `ScoreboardTrackedPlayerScore` followed by the checked
64-bit `ParseInt` (`err == nil` required, so an overflowing value is
skipped). -/
def parseScoreReply (reply : String) : Option Int :=
  match reAnchored (reFuelFor reply.data) trackedScoreRE reply.data with
  | some caps =>
      let ds := digitsVal (capGet caps 1)
      if ds ≤ maxInt64 then some (Int.ofNat ds) else none
  | none => none

/-- Translation of `ScoreboardCore.syncOneScore` given the reply of the
get-score command.  When the reply parses, the code assigns
`sc.score[player][name] = value` without ensuring the inner map exists: if
the player has no cache entry this is an assignment to an entry in a nil
map, a Go runtime panic. -/
def syncOneScoreM (scorelist : List String) (cache : Cache) (ctxName player lname : String)
    (reply : String) : Except String Cache :=
  let name := nsName ctxName lname
  if scorelist.contains name then
    match parseScoreReply reply with
    | some v =>
        match cacheGet cache player with
        | some _ => Except.ok (cacheSet cache player name v)
        | none => Except.error "panic: assignment to entry in nil map"
    | none => Except.ok cache
  else Except.ok cache

/-- Translation of `ScoreboardCore.getOneScore`: refresh one score, then
return the cached value, or 0 when absent. -/
def getOneScoreM (scorelist : List String) (cache : Cache) (ctxName player lname : String)
    (reply : String) : Except String Int :=
  (syncOneScoreM scorelist cache ctxName player lname reply).map (fun cache2 =>
    match cacheGet cache2 player with
    | some inner =>
        match innerGet inner (nsName ctxName lname) with
        | some v => v
        | none => 0
    | none => 0)

/-- Full core state, for the frame conditions of the guarded no-ops: the
Go methods `displayScoreboard` and `scoreAction` read `scorelist` under a
read lock and write no field at all. -/
structure CoreState where
  scorelist : List String
  cache : Cache
  trigger : List String
  deriving DecidableEq

def displayScoreboardFull (ctxName lname slot : String) (st : CoreState) :
    CoreState × List String :=
  (st, displayScoreboardM ctxName lname slot st.scorelist)

def scoreActionFull (ctxName player lname action : String) (count : Int) (st : CoreState) :
    CoreState × List String :=
  (st, scoreActionM ctxName player lname action count st.scorelist)

/-! Model of `ScoreboardCore.registerTrigger`.  Randomness is supplied as
an explicit stream of 32-bit values consumed by the collision-avoidance
loop; the trigger map is represented by its list of keys (insertion
appends, and nothing in the component ever deletes a binding).  `none`
means the finite random stream was exhausted (the real loop would just
keep drawing). -/

def genTriggerName (ns : String) (r : Nat) : String :=
  "tri_" ++ ns ++ "_" ++ String.mk (b64Encode b64StdAlphabet (be32Bytes r))

def pickName (ns : String) (trig : List String) : List Nat → Option (String × List Nat)
  | [] => none
  | r :: rs =>
      let n := genTriggerName ns r
      if trig.contains n then pickName ns trig rs else some (n, rs)

def registerTriggerM (ns : String) :
    Nat → List String → List Nat → Option (List String × List String × List String × List Nat)
  | 0, trig, rands => some ([], [], trig, rands)
  | k + 1, trig, rands =>
      match pickName ns trig rands with
      | none => none
      | some (n, rs) =>
          match registerTriggerM ns k (trig ++ [n]) rs with
          | none => none
          | some (names, cmds, trig2, rs2) =>
              some (n :: names,
                ("scoreboard objectives add " ++ n ++ " trigger") ::
                ("scoreboard players enable @a " ++ n) :: cmds, trig2, rs2)

/-- A whole-process sequence of `registerTrigger` calls, each given its
callback count and random stream; returns all names returned across the
sequence and the final trigger map. -/
def runRegisterCalls (ns : String) :
    List (Nat × List Nat) → List String → Option (List String × List String)
  | [], trig => some ([], trig)
  | (k, rands) :: rest, trig =>
      match registerTriggerM ns k trig rands with
      | none => none
      | some (names, _, trig2, _) =>
          match runRegisterCalls ns rest trig2 with
          | none => none
          | some (allnames, trigF) => some (names ++ allnames, trigF)

/-! Heap model for `getAllScore` (claim about copy depth).  Go maps are
reference values: `sc.score` maps a player to a pointer to an inner map.
The heap holds the inner maps, indexed by reference; the outer map pairs a
player with a reference.  `maps.Copy(dst, src)` with a fresh empty `dst`
copies the (player, reference) pairs only — a one-level copy. -/

structure ScHeap where
  inners : List (List (String × Int))
  deriving DecidableEq

abbrev OuterMap := List (String × Nat)

def heapGet (h : ScHeap) (r : Nat) : List (String × Int) := h.inners.getD r []

def heapSet (h : ScHeap) (r : Nat) (m : List (String × Int)) : ScHeap := ⟨h.inners.set r m⟩

/-- Value seen for `(player, obj)` through an outer map under the current
heap. -/
def view (h : ScHeap) (o : OuterMap) (player obj : String) : Option Int :=
  match o.find? (fun p => p.1 == player) with
  | some p => innerGet (heapGet h p.2) obj
  | none => none

/-- Write `sc.score[player][obj] = v` through the reference held by the
outer map (the player is present whenever `syncScore` writes, since it
allocates the inner map first). -/
def writeScoreRef (h : ScHeap) (o : OuterMap) (player obj : String) (v : Int) : ScHeap :=
  match o.find? (fun p => p.1 == player) with
  | some p => heapSet h p.2 (innerSet (heapGet h p.2) obj v)
  | none => h

/-- Per-player body of the `syncScore` loop: allocate the inner map when
the player is new, then visit every registered objective and store each
successfully parsed reply. -/
def syncPlayerScores (getReply : String → String → String) (scorelist : List String)
    (h : ScHeap) (o : OuterMap) (player : String) : ScHeap × OuterMap :=
  let p :=
    match o.find? (fun q => q.1 == player) with
    | some _ => (h, o)
    | none => (⟨h.inners ++ [[]]⟩, o ++ [(player, h.inners.length)])
  (scorelist.foldl (fun hh score =>
      match parseScoreReply (getReply player score) with
      | some v => writeScoreRef hh p.2 player score v
      | none => hh) p.1, p.2)

/-- Translation of `ScoreboardCore.syncScore`, with the console replies
supplied as inputs: the tracked-player enumeration reply and the per
(player, objective) get-score replies. -/
def syncScoreM (listReply : String) (getReply : String → String → String)
    (scorelist : List String) (h : ScHeap) (o : OuterMap) : ScHeap × OuterMap :=
  match reSearch (reFuelFor listReply.data) trackedPlayerRE listReply.data with
  | none => (h, o)
  | some caps =>
      let players := (splitOnChar ',' (capGet caps 1)).map (fun p => String.mk (goTrimSpace p))
      players.foldl (fun acc pl => syncPlayerScores getReply scorelist acc.1 acc.2 pl) (h, o)

/-- Translation of `ScoreboardCore.getAllScore`: run the full sync, then
copy the outer map into a fresh top-level map (`maps.Copy`), returning
(heap, cache outer map, snapshot outer map). -/
def getAllScoreM (listReply : String) (getReply : String → String → String)
    (scorelist : List String) (h : ScHeap) (o : OuterMap) : ScHeap × OuterMap × OuterMap :=
  let s := syncScoreM listReply getReply scorelist h o
  (s.1, s.2, s.2)

/-- Cached value of a (player, objective) pair, `none` when either level of
the map has no entry. -/
def cacheLookup (c : Cache) (player obj : String) : Option Int :=
  (cacheGet c player).bind (fun m => innerGet m obj)

/-! Validation of the embedding on concrete data: reference vectors of
XXH64, the namespace values of the repository's own plugins, and the
behaviour of the three console-scraping patterns. -/

example : xxh64 [] = 0xef46db3751d8e999 := by decide
example : xxh64 (strBytes "abc") = 0x44bc2cf5ad770999 := by decide
example : getNamespace "StatusPlugin" = "f1lIo" := by decide
example : getNamespace "PlayerInfo" = "LVWtt" := by decide

example :
    (reAnchored 4000 trackedScoreRE "Bob has 5".data).map (fun c => capGet c 1)
      = some "5".data := by decide

example : reAnchored 4000 trackedScoreRE "No entity was found".data = none := by decide

example :
    (reSearch 4000 trackedPlayerRE "There are 2 tracked entities: Alice, Bob".data).map
      (fun c => capGet c 1) = some "Alice, Bob".data := by decide

example :
    (reSearch 4000 triggerInfoRE
        "[12:34:56] [Server thread/INFO]: [Alice: Triggered [tri_x] (set value to 7)]".data).map
      (fun c => (capGet c 1, capGet c 2, capGet c 3, capGet c 4))
      = some ("Alice".data, "tri_x".data, "7".data, []) := by decide

example :
    (syncScoreM "There are 1 tracked entities: Bob" (fun _ _ => "Bob has 4") ["obj"]
        ⟨[]⟩ []) = (⟨[[("obj", 4)]]⟩, [("Bob", 0)]) := by decide

/-! Supporting lemmas. -/

theorem stepBurst_none (ts : List Nat) : ts.foldl stepBurst none = none := by
  induction ts with
  | nil => rfl
  | cons t ts ih => simpa [stepBurst] using ih

theorem requestSync_timers_len (t : Nat) (s : DebounceState) :
    (requestSync t s).timers.length = s.timers.length + 1 := by
  rcases hs : s.armed with _ | i <;> simp [requestSync, hs]

/-- Every call of a valid burst leaves one more armed timer than before:
the code creates a fresh `time.AfterFunc` timer on every call, even when
it has just `Reset` the previous one. -/
theorem burst_timer_count (ts : List Nat) :
    ∀ (s0 st : DebounceState), ts.foldl stepBurst (some s0) = some st →
      st.timers.length = s0.timers.length + ts.length := by
  induction ts with
  | nil =>
      intro s0 st h
      simp only [List.foldl_nil, Option.some.injEq] at h
      rw [← h]; simp
  | cons t ts ih =>
      intro s0 st h
      simp only [List.foldl_cons] at h
      by_cases hc : s0.timers.all (fun d => t < d) = true
      · have hstep : stepBurst (some s0) t = some (requestSync t s0) := by
          show (if s0.timers.all (fun d => t < d) = true then some (requestSync t s0)
            else none) = some (requestSync t s0)
          rw [if_pos hc]
        rw [hstep] at h
        have := ih (requestSync t s0) st h
        rw [this, requestSync_timers_len]
        simp only [List.length_cons]
        omega
      · have hstep : stepBurst (some s0) t = none := by
          show (if s0.timers.all (fun d => t < d) = true then some (requestSync t s0)
            else none) = none
          rw [if_neg hc]
        rw [hstep, stepBurst_none] at h
        cases h

theorem clearFold_mem (items : List (List Char)) (acc : List String) (c : String) :
    (c ∈ items.foldl
        (fun acc2 t => if containsL "tri_".data t then acc2 ++ [removeCmdStr t] else acc2) acc)
      ↔ c ∈ acc ∨ ∃ t, t ∈ items ∧ containsL "tri_".data t = true ∧ c = removeCmdStr t := by
  induction items generalizing acc with
  | nil => simp
  | cons t ts ih =>
      simp only [List.foldl_cons]
      by_cases h : containsL "tri_".data t = true
      · rw [if_pos h, ih]
        constructor
        · rintro (hc | ⟨u, hu, hP, hcu⟩)
          · rcases List.mem_append.mp hc with hc2 | hc2
            · exact Or.inl hc2
            · have he : c = removeCmdStr t := by simpa using hc2
              exact Or.inr ⟨t, List.mem_cons_self t ts, h, he⟩
          · exact Or.inr ⟨u, List.mem_cons_of_mem t hu, hP, hcu⟩
        · rintro (hc | ⟨u, hu, hP, hcu⟩)
          · exact Or.inl (List.mem_append_left _ hc)
          · rcases List.mem_cons.mp hu with rfl | hu2
            · exact Or.inl (List.mem_append_right _ (by simp [hcu]))
            · exact Or.inr ⟨u, hu2, hP, hcu⟩
      · rw [if_neg h, ih]
        constructor
        · rintro (hc | ⟨u, hu, hP, hcu⟩)
          · exact Or.inl hc
          · exact Or.inr ⟨u, List.mem_cons_of_mem t hu, hP, hcu⟩
        · rintro (hc | ⟨u, hu, hP, hcu⟩)
          · exact Or.inl hc
          · rcases List.mem_cons.mp hu with rfl | hu2
            · exact absurd hP h
            · exact Or.inr ⟨u, hu2, hP, hcu⟩

/-- A prefix occurrence is in particular a substring occurrence (used to
read the amended startup-cleanup claim: every `tri_`-prefixed objective is
still removed). -/
theorem startsWith_implies_contains (pat s : List Char)
    (h : startsWithL pat s = true) : containsL pat s = true := by
  cases s with
  | nil =>
      cases pat with
      | nil => rfl
      | cons p ps => cases h
  | cons x xs => simp [containsL, h]

theorem pickName_fresh (ns : String) (trig : List String) :
    ∀ (rands : List Nat) (n : String) (rs : List Nat),
      pickName ns trig rands = some (n, rs) → trig.contains n = false := by
  intro rands
  induction rands with
  | nil => intro n rs h; simp [pickName] at h
  | cons r rs0 ih =>
      intro n rs h
      unfold pickName at h
      by_cases hc : trig.contains (genTriggerName ns r) = true
      · rw [if_pos hc] at h; exact ih n rs h
      · rw [if_neg hc] at h
        simp only [Option.some.injEq, Prod.mk.injEq] at h
        obtain ⟨h1, _⟩ := h
        rw [← h1]
        simpa using hc

theorem registerTriggerM_spec (ns : String) :
    ∀ (k : Nat) (trig : List String) (rands : List Nat) (names cmds trig2 : List String)
      (rs : List Nat),
      registerTriggerM ns k trig rands = some (names, cmds, trig2, rs) →
      trig2 = trig ++ names ∧ names.Nodup ∧ ∀ n ∈ names, n ∉ trig := by
  intro k
  induction k with
  | zero =>
      intro trig rands names cmds trig2 rs h
      simp only [registerTriggerM, Option.some.injEq, Prod.mk.injEq] at h
      obtain ⟨h1, _, h3, _⟩ := h
      rw [← h1, ← h3]
      exact ⟨by simp, List.nodup_nil, by simp⟩
  | succ k ih =>
      intro trig rands names cmds trig2 rs h
      unfold registerTriggerM at h
      split at h
      · exact Option.noConfusion h
      · rename_i n rs1 hp
        split at h
        · exact Option.noConfusion h
        · rename_i names1 cmds1 trig21 rs2 hr
          simp only [Option.some.injEq, Prod.mk.injEq] at h
          obtain ⟨h1, _, h3, _⟩ := h
          obtain ⟨e1, e2, e3⟩ := ih (trig ++ [n]) rs1 names1 cmds1 trig21 rs2 hr
          have hn : n ∉ trig := by
            have := pickName_fresh ns trig rands n rs1 hp
            simpa using this
          refine ⟨?_, ?_, ?_⟩
          · rw [← h3, ← h1, e1]; simp
          · rw [← h1]
            refine List.nodup_cons.mpr ⟨?_, e2⟩
            intro hmem
            exact e3 n hmem (by simp)
          · rw [← h1]
            intro m hm
            rcases List.mem_cons.mp hm with rfl | hm2
            · exact hn
            · intro hmt
              exact e3 m hm2 (List.mem_append_left _ hmt)

/-! Claim theorems. -/

/-- C1 (code bug): `requestSync` is intended as a debounce — N calls
within the 1-second window should leave a single pending sync, scheduled
one second after the last call.  The code `Reset`s the timer the
`debounce` field points at and then unconditionally creates a second
timer: after a burst of two calls (at 0 ms and at 500 ms, both before any
pending deadline) two timers are armed, each of which fires `syncScore`
once, so two full syncs run and two pending syncs are outstanding. -/
theorem claim1_requestSync_not_debounced :
    runBurst [0, 500] = some ⟨[1500, 1500], some 1⟩ ∧
    pendingSyncs ⟨[1500, 1500], some 1⟩ = 2 := by decide

/-- C2 counterexample: the dispatch pattern demands a `]:` log prefix
before the trigger body, and the bare line quoted by the claim contains no
`]:`, so `processTrigger` matches nothing, issues no command and invokes
no callback on exactly the input the claim says fires the callback. -/
theorem claim2_counterexample :
    processTriggerM ["tri_ab12c_XYZ"]
      "[Alice: Triggered [tri_ab12c_XYZ] (added 3 to value)]" = ([], []) := by decide

/-- C2 amended: for a console line carrying the standard log prefix ending
in `]:` followed by the quoted trigger body, the bound callback is invoked
exactly once with player Alice and value 3, after re-issuing the enable
command; a line that does not match the grammar, or a matching line whose
trigger is not bound, invokes nothing and issues nothing. -/
theorem claim2_amended_dispatch :
    processTriggerM ["tri_ab12c_XYZ"]
      "[Server thread/INFO]: [Alice: Triggered [tri_ab12c_XYZ] (added 3 to value)]"
      = (["scoreboard players enable @a tri_ab12c_XYZ"], [("Alice", 3)]) ∧
    processTriggerM ["tri_ab12c_XYZ"] "[Server thread/INFO]: Alice joined the game"
      = ([], []) ∧
    processTriggerM []
      "[Server thread/INFO]: [Alice: Triggered [tri_ab12c_XYZ] (added 3 to value)]"
      = ([], []) := by decide

/-- C3 counterexample: the cleanup filter is `strings.Contains`, not a
prefix test — an enumerated objective `foo_tri_x`, which does not begin
with `tri_`, still gets a remove command. -/
theorem claim3_counterexample :
    clearTriggerM "There are 2 objectives: [foo_tri_x], [money]"
      = ["scoreboard objectives remove foo_tri_x"] ∧
    startsWithL "tri_".data "foo_tri_x".data = false := by decide

/-- C3 amended: startup cleanup issues a remove command exactly for the
enumerated objectives whose name contains the substring `tri_` (hence for
every objective beginning with `tri_`, but also for names merely
containing it); all other objectives are untouched. -/
theorem claim3_amended_contains (reply : String) (c : String) :
    c ∈ clearTriggerM reply ↔
      ∃ t, t ∈ clearItems reply ∧ containsL "tri_".data t = true ∧ c = removeCmdStr t := by
  unfold clearTriggerM
  rw [clearFold_mem]
  simp

/-- C4 (code bug): the claim says no operation is fatal, but two
operations panic.  `getOneScore` for a player with no cache entry panics
when the get-score reply parses (`sc.score[player][name] = v` assigns into
a nil inner map), and `ensureObjective` panics for a logical name shorter
than three characters (the diagnostic slices `name[9:]` of a namespaced
name of length less than nine). -/
theorem claim4_operations_panic :
    syncOneScoreM [nsName "StatusPlugin" "kills"] [] "StatusPlugin" "Bob" "kills" "Bob has 5"
      = Except.error "panic: assignment to entry in nil map" ∧
    getOneScoreM [nsName "StatusPlugin" "kills"] [] "StatusPlugin" "Bob" "kills" "Bob has 5"
      = Except.error "panic: assignment to entry in nil map" ∧
    ensureScoreboardM "StatusPlugin" "ab" "dummy" "Ab" []
      = Except.error "panic: slice bounds out of range in name[9:]" := by decide

/-- C5 counterexample: the namespace token has only 30 bits, so distinct
plugin names can collide; these two distinct names receive the same
namespace. -/
theorem claim5_counterexample :
    getNamespace "plugin5315" = getNamespace "plugin47805" ∧
    "plugin5315" ≠ "plugin47805" := by decide

theorem getNamespace_len (s : String) : (getNamespace s).length = 5 := rfl

/-- C5 amended: `getNamespace` is a pure deterministic function of the
identity's name (so repeated calls and restarts agree) always producing a
5-character token, and the repository's actual plugin identities get
pairwise distinct namespaces — but distinct names do not guarantee
distinct namespaces in general (see the counterexample). -/
theorem claim5_amended_stable_not_injective :
    (∀ a b : String, a = b → getNamespace a = getNamespace b) ∧
    (∀ s : String, (getNamespace s).length = 5) ∧
    getNamespace "ScoreboardCore" ≠ getNamespace "StatusPlugin" ∧
    getNamespace "ScoreboardCore" ≠ getNamespace "PlayerInfo" ∧
    getNamespace "StatusPlugin" ≠ getNamespace "PlayerInfo" := by
  refine ⟨fun a b h => by rw [h], fun s => getNamespace_len s, ?_, ?_, ?_⟩ <;> decide

theorem claim5_amended_witness :
    getNamespace "StatusPlugin" = getNamespace "StatusPlugin" :=
  claim5_amended_stable_not_injective.1 "StatusPlugin" "StatusPlugin" rfl

/-- C6 counterexample: for a one-character logical name the first call
panics in the diagnostic slice before any command is issued, so calling
twice with these identical arguments does not issue exactly one create
command (it issues none and aborts). -/
theorem claim6_counterexample :
    ensureScoreboardM "StatusPlugin" "x" "point" "X" []
      = Except.error "panic: slice bounds out of range in name[9:]" := by decide

/-- C6 amended: for arguments whose namespaced name is at least nine bytes
long (logical name of three or more characters), two identical calls issue
exactly one create command and add exactly one registry entry: the first
call issues the command and appends the name, the second finds the name
registered and returns immediately with no command and no change. -/
theorem claim6_idempotent (ctxName lname criterion displayname : String) (sl : List String)
    (h1 : sl.contains (nsName ctxName lname) = false)
    (h2 : 9 ≤ (nsName ctxName lname).length) :
    ensureScoreboardM ctxName lname criterion displayname sl
      = Except.ok (["scoreboard objectives add " ++ nsName ctxName lname ++ " " ++ criterion
          ++ " " ++ displayname], sl ++ [nsName ctxName lname]) ∧
    ensureScoreboardM ctxName lname criterion displayname (sl ++ [nsName ctxName lname])
      = Except.ok ([], sl ++ [nsName ctxName lname]) := by
  have h3 : ¬ ((nsName ctxName lname).length < 9) := by omega
  have hm : nsName ctxName lname ∉ sl := by simpa using h1
  have h4 : nsName ctxName lname ∈ sl ++ [nsName ctxName lname] := by simp
  constructor
  · simp [ensureScoreboardM, hm, h3]
  · simp [ensureScoreboardM, h4]

theorem claim6_idempotent_witness :
    ensureScoreboardM "StatusPlugin" "kills" "playerKillCount" "Kills" []
      = Except.ok (["scoreboard objectives add " ++ nsName "StatusPlugin" "kills" ++ " "
          ++ "playerKillCount" ++ " " ++ "Kills"], [] ++ [nsName "StatusPlugin" "kills"]) ∧
    ensureScoreboardM "StatusPlugin" "kills" "playerKillCount" "Kills"
        ([] ++ [nsName "StatusPlugin" "kills"])
      = Except.ok ([], [] ++ [nsName "StatusPlugin" "kills"]) :=
  claim6_idempotent "StatusPlugin" "kills" "playerKillCount" "Kills" []
    (by decide) (by decide)

/-- C7 (confirmed): when the single-objective refresh completes (no
panic) and afterwards the cache still has no entry for the pair,
`getOneScore` returns 0. -/
theorem claim7_never_synced_zero (sl : List String) (cache cache2 : Cache)
    (ctxName player lname reply : String)
    (h1 : syncOneScoreM sl cache ctxName player lname reply = Except.ok cache2)
    (h2 : cacheLookup cache2 player (nsName ctxName lname) = none) :
    getOneScoreM sl cache ctxName player lname reply = Except.ok 0 := by
  cases hg : cacheGet cache2 player with
  | none => simp only [getOneScoreM, h1, Except.map, hg]
  | some inner =>
      have h3 : innerGet inner (nsName ctxName lname) = none := by
        unfold cacheLookup at h2
        rw [hg] at h2
        simpa using h2
      simp only [getOneScoreM, h1, Except.map, hg, h3]

theorem claim7_witness :
    getOneScoreM [] [] "StatusPlugin" "Bob" "kills" "No entity was found" = Except.ok 0 :=
  claim7_never_synced_zero [] [] [] "StatusPlugin" "Bob" "kills" "No entity was found"
    (by decide) (by decide)

/-- C8 (confirmed): across any whole-process sequence of `registerTrigger`
calls, every accepted candidate is absent from the trigger map at
acceptance time and immediately bound, the map only grows, and therefore
all names returned across the sequence are pairwise distinct and disjoint
from the initial map. -/
theorem claim8_trigger_names_distinct (ns : String) :
    ∀ (calls : List (Nat × List Nat)) (trig allnames trigF : List String),
      runRegisterCalls ns calls trig = some (allnames, trigF) →
      trigF = trig ++ allnames ∧ allnames.Nodup ∧ ∀ n ∈ allnames, n ∉ trig := by
  intro calls
  induction calls with
  | nil =>
      intro trig allnames trigF h
      simp only [runRegisterCalls, Option.some.injEq, Prod.mk.injEq] at h
      obtain ⟨h1, h2⟩ := h
      rw [← h1, ← h2]
      exact ⟨by simp, List.nodup_nil, by simp⟩
  | cons c rest ih =>
      obtain ⟨k, rands⟩ := c
      intro trig allnames trigF h
      unfold runRegisterCalls at h
      split at h
      · exact Option.noConfusion h
      · rename_i names cmds trig2 rs hr
        split at h
        · exact Option.noConfusion h
        · rename_i allnames1 trigF1 hrest
          simp only [Option.some.injEq, Prod.mk.injEq] at h
          obtain ⟨h1, h2⟩ := h
          obtain ⟨e1, e2, e3⟩ := registerTriggerM_spec ns k trig rands names cmds trig2 rs hr
          obtain ⟨f1, f2, f3⟩ := ih trig2 allnames1 trigF1 hrest
          subst e1
          refine ⟨?_, ?_, ?_⟩
          · rw [← h2, ← h1, f1]; simp
          · rw [← h1]
            refine List.Nodup.append e2 f2 ?_
            intro a ha hA
            exact f3 a hA (List.mem_append_right trig ha)
          · rw [← h1]
            intro m hm
            rcases List.mem_append.mp hm with hm | hm
            · exact e3 m hm
            · intro hmt
              exact f3 m hm (List.mem_append_left _ hmt)

theorem claim8_witness :
    (["tri_abcde_AAAAAA", "tri_abcde_AAAAAQ", "tri_abcde_AAAAAg"] : List String)
        = [] ++ ["tri_abcde_AAAAAA", "tri_abcde_AAAAAQ", "tri_abcde_AAAAAg"] ∧
    (["tri_abcde_AAAAAA", "tri_abcde_AAAAAQ", "tri_abcde_AAAAAg"] : List String).Nodup ∧
    ∀ n ∈ (["tri_abcde_AAAAAA", "tri_abcde_AAAAAQ", "tri_abcde_AAAAAg"] : List String),
      n ∉ ([] : List String) :=
  claim8_trigger_names_distinct "abcde" [(2, [0, 0, 1]), (1, [0, 2])] []
    ["tri_abcde_AAAAAA", "tri_abcde_AAAAAQ", "tri_abcde_AAAAAg"]
    ["tri_abcde_AAAAAA", "tri_abcde_AAAAAQ", "tri_abcde_AAAAAg"] (by decide)

/-- C9 (confirmed): when the namespaced objective is not registered, both
`displayObjective` and `scoreAction` issue no console command and leave
the whole core state (registry, cache, trigger map) unchanged. -/
theorem claim9_unregistered_noop (ctxName lname slot player action : String) (count : Int)
    (st : CoreState) (h : st.scorelist.contains (nsName ctxName lname) = false) :
    displayScoreboardFull ctxName lname slot st = (st, []) ∧
    scoreActionFull ctxName player lname action count st = (st, []) := by
  have hm : nsName ctxName lname ∉ st.scorelist := by simpa using h
  unfold displayScoreboardFull scoreActionFull displayScoreboardM scoreActionM
  simp [hm]

theorem claim9_witness :
    displayScoreboardFull "StatusPlugin" "kills" "sidebar" ⟨[], [], []⟩
      = (⟨[], [], []⟩, []) ∧
    scoreActionFull "StatusPlugin" "Bob" "kills" "add" 1 ⟨[], [], []⟩
      = (⟨[], [], []⟩, []) :=
  claim9_unregistered_noop "StatusPlugin" "kills" "sidebar" "Bob" "add" 1
    ⟨[], [], []⟩ (by decide)

/-- C10 counterexample: the snapshot returned by `getAllScore` shares the
per-player inner maps with the cache.  Starting from a cache where player
A's inner map (heap reference 0) holds value 1 for an objective, the
sync is a no-op (non-matching reply), the snapshot shows value 1 at return
time, and a later cache write of value 2 through the cache's outer map is
visible through the previously returned snapshot — so mutations of the
cache do alter a returned snapshot, contradicting the deep-copy claim. -/
theorem claim10_counterexample :
    (getAllScoreM "" (fun _ _ => "") [] ⟨[[("f1lIo_kills", 1)]]⟩ [("A", 0)]).2.2
      = [("A", 0)] ∧
    view (getAllScoreM "" (fun _ _ => "") [] ⟨[[("f1lIo_kills", 1)]]⟩ [("A", 0)]).1
      (getAllScoreM "" (fun _ _ => "") [] ⟨[[("f1lIo_kills", 1)]]⟩ [("A", 0)]).2.2
      "A" "f1lIo_kills" = some 1 ∧
    view
      (writeScoreRef (getAllScoreM "" (fun _ _ => "") [] ⟨[[("f1lIo_kills", 1)]]⟩ [("A", 0)]).1
        (getAllScoreM "" (fun _ _ => "") [] ⟨[[("f1lIo_kills", 1)]]⟩ [("A", 0)]).2.1
        "A" "f1lIo_kills" 2)
      (getAllScoreM "" (fun _ _ => "") [] ⟨[[("f1lIo_kills", 1)]]⟩ [("A", 0)]).2.2
      "A" "f1lIo_kills" = some 2 := by decide

/-- C10 amended: `getAllScore` runs the full sync and then performs a
one-level copy: the snapshot is a fresh top-level map holding exactly the
cache's (player, inner-map reference) pairs, so it equals the cache at
return time and, under every later heap (i.e. after any later writes to
existing players' scores), the snapshot and the cache's outer map show the
same values — inner mutations are visible through both, while a player
added to the cache's fresh top level later does not appear in the
snapshot (concrete final conjuncts). -/
theorem claim10_amended_shallow (listReply : String) (getReply : String → String → String)
    (scorelist : List String) (h : ScHeap) (o : OuterMap) :
    ((getAllScoreM listReply getReply scorelist h o).2.2
      = (getAllScoreM listReply getReply scorelist h o).2.1) ∧
    (∀ (h2 : ScHeap) (player obj : String),
      view h2 (getAllScoreM listReply getReply scorelist h o).2.2 player obj
        = view h2 (getAllScoreM listReply getReply scorelist h o).2.1 player obj) ∧
    view ⟨[[("o", 1)], [("o", 9)]]⟩ ([("A", 0)] ++ [("B", 1)]) "B" "o" = some 9 ∧
    view ⟨[[("o", 1)], [("o", 9)]]⟩ [("A", 0)] "B" "o" = none :=
  ⟨rfl, fun _ _ _ => rfl, by decide, by decide⟩

end Scoreboard
